import Mathlib

/-!
Verification of the chainablejs task-queue execution engine.

The repository `src/chainable.js` concatenates several evolutions of the same
core.  Two of them are referenced by the properties checked here:

* variant A (lines 1-224): the `chains` api object with `queueTask`,
  `chains.exec` (re-entrancy guard, `results = []` reset) and the
  `exec`/`done`/`_exec` drain loop (lines 199-224);
* variant D (lines 721-979): the `__chainable__` state record with
  `queueTask` (lines 920-932), the `exec`/`_done`/`_exec` drain
  (lines 937-978) and the deferred-delivery `Chainable.prototype.catch`
  (lines 857-868) and `Chainable.prototype.done` (lines 841-851).

Steps are asynchronous functions that finish by calling a completion callback
`done(err, result)` exactly once.  The embedding abstracts a queued task by
the pair its callback will deliver (`Outcome`); a drain is then the fold of
the source's `done` callback over the queue, which is exactly the execution
order of the canonical asynchronous run: all fluent calls enqueue their tasks
first (every `exec` trigger but the first being a no-op by the re-entrancy
guard), after which the completions arrive in queue order, each one resuming
the drain.  Handler invocations are recorded in an explicit log so that the
theorems can talk about what `done`/`catch` received and which tasks ran.
-/

namespace Chainablejs

/-- What a step passes to its completion callback `done(err, result)`:
`err` truthy is modelled as `some e`, a defined `result` as `some r`. -/
structure Outcome (α ε : Type) where
  err : Option ε
  result : Option α
deriving DecidableEq

/-- Observable events of one drain of variant A: the (enqueue-order, 0-based)
indices of the tasks whose step function was invoked, the `(err, results)`
delivered to `chains.onError`, the results delivered to `chains.onFinished`,
and the error re-raised by `throw new Error(err)` when no handler exists. -/
structure LogA (α ε : Type) where
  invoked : List Nat
  errorCall : Option (ε × List α)
  finishedCall : Option (List α)
  thrown : Option ε
deriving DecidableEq

/-- Log of a drain in which no task was invoked and no handler fired. -/
def LogA.empty {α ε : Type} : LogA α ε :=
  { invoked := [], errorCall := none, finishedCall := none, thrown := none }

/-- Line 204 of variant A, the first statement of the `done` callback:
`if (result !== undefined) chains.addResult(result)`. -/
def addResultIfDefined {α : Type} (acc : List α) (result : Option α) : List α :=
  match result with
  | some r => acc ++ [r]
  | none => acc

variable {α ε : Type}

/-- The drain loop of variant A's `exec` (lines 199-224), starting from the
task at enqueue index `idx` with accumulated results `acc`.  Each cons cell is
one `runTask`/`done` round trip:

* `done` first appends a defined result (line 204);
* on a truthy `err` it clears the queue and either calls `onError` with
  `(err, results)` and clears `results` (lines 206-209), or re-raises when no
  error handler is registered (line 207);
* otherwise `_exec(true)` splices the finished task and runs the next one;
  when the spliced queue is empty, `onFinished(results)` fires if registered
  and `results` is cleared (lines 210-214), else nothing happens (line 215).

The `[]` case is the `_exec(true)`-returned-false situation of an exhausted
queue. -/
def drainLoop (onErr onFin : Bool) (idx : Nat) (acc : List α) :
    List (Outcome α ε) → List α × LogA α ε
  | [] =>
      if onFin then ([], { invoked := [], errorCall := none, finishedCall := some acc, thrown := none })
      else (acc, { invoked := [], errorCall := none, finishedCall := none, thrown := none })
  | o :: rest =>
      match o.err with
      | some e =>
          if onErr then
            ([], { invoked := [idx], errorCall := some (e, addResultIfDefined acc o.result),
                   finishedCall := none, thrown := none })
          else
            (addResultIfDefined acc o.result,
             { invoked := [idx], errorCall := none, finishedCall := none, thrown := some e })
      | none =>
          let r := drainLoop onErr onFin (idx + 1) (addResultIfDefined acc o.result) rest
          (r.1, { invoked := idx :: r.2.invoked, errorCall := r.2.errorCall,
                  finishedCall := r.2.finishedCall, thrown := r.2.thrown })

/-- Variant A's `exec` function (lines 199-224) as called from `chains.exec`:
the initial `_exec()` on an empty queue returns `false` and its result is
discarded (line 223), so nothing happens; on a non-empty queue the drain loop
starts at the front task.  The accumulator is `[]` because `chains.exec`
just reset `results` (line 82). -/
def execA (onErr onFin : Bool) (tasks : List (Outcome α ε)) : List α × LogA α ε :=
  match tasks with
  | [] => ([], LogA.empty)
  | o :: rest => drainLoop onErr onFin 0 [] (o :: rest)

/-- Builder state of variant A: the task queue, the `results` accumulator, the
`executing` flag and whether `onError` / `onFinished` handlers are registered
(they are the string `'fn'`, not functions, until `catch` / `done` stores
one). -/
structure StateA (α ε : Type) where
  tasks : List (Outcome α ε)
  results : List α
  executing : Bool
  onError : Bool
  onFinished : Bool
deriving DecidableEq

/-- Variant A's `chains.exec` (lines 79-84): `if (executing) return;
executing = true; results = []; exec.call(this)`.  Note that nothing in
variant A ever sets `executing` back to false.  The final `tasks` is empty on
every path actually taken by a drain (error clears it, success consumes it,
and the empty-queue call leaves it empty). -/
def chainsExecA (s : StateA α ε) : StateA α ε × LogA α ε :=
  if s.executing then (s, LogA.empty)
  else
    let r := execA s.onError s.onFinished s.tasks
    ({ s with executing := true, results := r.1, tasks := [] }, r.2)

/-- Variant A's `chains.queueTask` (lines 66-74): push the bound task, then
trigger `chains.exec()`. -/
def queueTaskA (s : StateA α ε) (t : Outcome α ε) : StateA α ε × LogA α ε :=
  chainsExecA { s with tasks := s.tasks ++ [t] }

/-- One whole chain on a fresh variant A builder: the queue holds the fluent
calls' tasks in enqueue order and the first fluent call triggered the drain
(the canonical asynchronous run described in the file header). -/
def runChainA (onErr onFin : Bool) (outs : List (Outcome α ε)) : StateA α ε × LogA α ε :=
  chainsExecA { tasks := outs, results := [], executing := false,
                onError := onErr, onFinished := onFin }

/-- Observable events of one drain of variant D (lines 937-978): invoked task
indices and the arguments delivered to `onError` / `onFinished`.  Variant D
never throws on an unhandled step error; it stores the error instead. -/
structure LogD (α ε : Type) where
  invoked : List Nat
  errorCall : Option (ε × List α)
  finishedCall : Option (List α)
deriving DecidableEq

/-- Log of a variant D drain in which no task ran and no handler fired. -/
def LogD.empty {α ε : Type} : LogD α ε :=
  { invoked := [], errorCall := none, finishedCall := none }

/-- The drain loop of variant D's `exec`/`_done`/`_exec` (lines 937-978),
processing the tasks from enqueue index `idx` onward with accumulated
results `acc`.  Differences from variant A:

* `_exec` walks the queue by the index `executing - 1` instead of splicing
  (finished entries are nulled at line 969 but never read again, so the
  walk is observationally the traversal modelled here);
* an unhandled step error is stored in `chain.error` (line 953) instead of
  being re-raised, and `executing` returns to `0` (line 946);
* on exhaustion `_exec` resets `tasks = []` and `executing = 0` (lines
  970-972) before `_done` fires `onFinished` (lines 957-960).

The returned pair is `((final results, stored error), log)`. -/
def drainLoopD (onErr onFin : Bool) (idx : Nat) (acc : List α) :
    List (Outcome α ε) → (List α × Option ε) × LogD α ε
  | [] =>
      if onFin then (([], none), { invoked := [], errorCall := none, finishedCall := some acc })
      else ((acc, none), { invoked := [], errorCall := none, finishedCall := none })
  | o :: rest =>
      match o.err with
      | some e =>
          if onErr then
            (([], none), { invoked := [idx], errorCall := some (e, addResultIfDefined acc o.result),
                           finishedCall := none })
          else
            ((addResultIfDefined acc o.result, some e),
             { invoked := [idx], errorCall := none, finishedCall := none })
      | none =>
          let r := drainLoopD onErr onFin (idx + 1) (addResultIfDefined acc o.result) rest
          (r.1, { invoked := idx :: r.2.invoked, errorCall := r.2.errorCall,
                  finishedCall := r.2.finishedCall })

/-- Variant D's `exec` as triggered from `queueTask` (line 930): the top-level
`_exec(chain)` on an empty queue just resets the counters and returns `0`,
which line 938 discards, so no handler fires.  Unlike variant A, variant D
does not reset `results` when a drain starts, so the accumulator is the
current `chain.results`. -/
def execD (onErr onFin : Bool) (acc : List α) (tasks : List (Outcome α ε)) :
    (List α × Option ε) × LogD α ε :=
  match tasks with
  | [] => ((acc, none), LogD.empty)
  | o :: rest => drainLoopD onErr onFin 0 acc (o :: rest)

/-- The `__chainable__` record of variant D (lines 741-752): task queue,
results, the `executing` counter, the stored pending error, and whether the
`onError` / `onFinished` slots hold functions (they hold the string `'fn'`
until `catch` / `done` registers one). -/
structure StateD (α ε : Type) where
  tasks : List (Outcome α ε)
  results : List α
  executing : Nat
  error : Option ε
  onError : Bool
  onFinished : Bool
deriving DecidableEq

/-- Variant D's `queueTask` (lines 920-932): push the bound task, then start a
drain only if `executing === 0`.  Every queued closure first checks
`if (chain.error) return done()` (line 923): with a pending stored error each
task completes immediately without invoking its step function, the walk
exhausts the queue, and `onFinished` (if registered) receives the leftover
results. -/
def queueTaskD (s : StateD α ε) (t : Outcome α ε) : StateD α ε × LogD α ε :=
  let s1 : StateD α ε := { s with tasks := s.tasks ++ [t] }
  if s.executing = 0 then
    match s.error with
    | none =>
        let r := execD s.onError s.onFinished s.results s1.tasks
        ({ s1 with tasks := [], results := r.1.1, error := r.1.2, executing := 0 }, r.2)
    | some _ =>
        if s.onFinished then
          ({ s1 with tasks := [], results := [], executing := 0 },
           { invoked := [], errorCall := none, finishedCall := some s.results })
        else
          ({ s1 with tasks := [], executing := 0 }, LogD.empty)
  else (s1, LogD.empty)

/-- One whole chain on a fresh variant D builder: tasks in enqueue order, the
first fluent call triggered the drain, completions arrive in order. -/
def runChainD (onErr onFin : Bool) (outs : List (Outcome α ε)) : StateD α ε × LogD α ε :=
  let r := execD onErr onFin [] outs
  ({ tasks := [], results := r.1.1, executing := 0, error := r.1.2,
     onError := onErr, onFinished := onFin }, r.2)

/-- Variant D's `Chainable.prototype.catch` (lines 857-868): register the
handler, and if a stored error is pending while not executing, deliver
`(error, results)` to the just-registered handler at once, then clear
`results` and the stored error.  The second component is what the handler
received, if it was invoked. -/
def protoCatch (s : StateD α ε) : StateD α ε × Option (ε × List α) :=
  let s1 : StateD α ε := { s with onError := true }
  match s.error with
  | some e =>
      if s.executing = 0 then
        ({ s1 with results := [], error := none }, some (e, s.results))
      else (s1, none)
  | none => (s1, none)

/-- Variant D's `Chainable.prototype.done` (lines 841-851): register the
handler, and if the chain is not executing, has no pending error and has
non-empty pending results, deliver them to the just-registered handler at
once and clear `results`. -/
def protoDone (s : StateD α ε) : StateD α ε × Option (List α) :=
  let s1 : StateD α ε := { s with onFinished := true }
  match s.error with
  | some _ => (s1, none)
  | none =>
      if s.executing = 0 then
        if 0 < s.results.length then ({ s1 with results := [] }, some s.results)
        else (s1, none)
      else (s1, none)

/-- Registration state of variant A's builder: the private `methods`
collection and the public fluent methods created so far.  Step functions are
abstracted as opaque tokens, since registration only stores them. -/
structure RegistryA where
  methods : List (String × Nat)
  publicMethods : List String
deriving DecidableEq

/-- Variant A's `chains.chainable` (lines 50-64).  The reserved-keyword check
of line 53 (`methodName === api || methodName.match(/^then$/)`, the regex
matching exactly the string `then`) throws before anything is stored; only
when it passes are the method recorded (line 57) and the public fluent method
created (line 60).  The `checkAsync` source heuristic (line 56) is outside
the modelled core and assumed to pass.  The result pairs the registration
state after the call with the message of the thrown error, if one was thrown:
a throw leaves the builder exactly as it was. -/
def chainsChainable (api : String) (st : RegistryA) (methodName : String) (fn : Nat) :
    RegistryA × Option String :=
  if methodName = api ∨ methodName = "then" then
    (st, some ("Reserved keyword: " ++ methodName))
  else
    ({ methods := st.methods ++ [(methodName, fn)],
       publicMethods := st.publicMethods ++ [methodName] }, none)

/-- The members a fresh variant D builder already has (lines 731-738 and the
prototype methods), i.e. the names for which `this[method]` is truthy. -/
def protoProps : List String :=
  ["chainable", "then", "done", "catch", "results", "lastResult"]

/-- Variant D's `Chainable.prototype.chainable` (lines 772-795): a name for
which `this[method]` is already truthy — `then` among them — is rejected as a
duplicate before `fn` is stored or a public method is created.  The result
pairs the builder's `(methods, own properties)` after the call with the
thrown error's message, if one was thrown. -/
def protoChainableD (existingProps : List String) (methodsD : List (String × Nat))
    (method : String) (fn : Nat) :
    (List (String × Nat) × List String) × Option String :=
  if method ∈ existingProps then
    ((methodsD, existingProps), some ("Duplicated method name: " ++ method))
  else
    ((methodsD ++ [(method, fn)], existingProps ++ [method]), none)

/-- One element of a task's argument array at execution time: either one of
the caller's parameters or the completion callback appended by the queue
closure. -/
inductive Arg (π : Type) where
  | param (p : π)
  | callback
deriving DecidableEq

/-- Variant A's `chainable.then(fn, [p1, ..., pn])` (lines 125-141) in the
single-array calling convention: the copy loop of lines 130-133 yields
`args = [theArray]`, and line 135 (`if (args.length === 1 && args[0].constructor
=== Array) args = args[0]`) re-binds `args` to the caller's array object
itself — no copy is made.  The components are the contents of the task's
argument array and whether it aliases the caller's array. -/
def thenArgsSingleArray {π : Type} (a : List π) : List (Arg π) × Bool :=
  (a.map Arg.param, true)

/-- Variant A's `chainable.then(fn, p1, ..., pn)` in the variadic calling
convention (any shape other than a single array argument): lines 130-133
build `args` as a fresh array holding the parameters, so it aliases none of
the caller's data structures. -/
def thenArgsVariadic {π : Type} (params : List π) : List (Arg π) × Bool :=
  (params.map Arg.param, false)

/-- Running the closure queued by `chains.queueTask` (lines 66-74): line 68,
`args[args.length] = done`, appends the completion callback to the argument
array before applying the step function. -/
def runQueuedTask {π : Type} (args : List (Arg π)) : List (Arg π) :=
  args ++ [Arg.callback]

/-- Contents of the caller's array after `then(fn, [p1, ..., pn])` has queued
and executed its task: the task's argument array aliases the caller's array
(`thenArgsSingleArray`), so the caller's array object holds whatever the run
left in the argument array. -/
def callerArrayAfterRun {π : Type} (a : List π) : List (Arg π) :=
  runQueuedTask (thenArgsSingleArray a).1

/-- Characterization of a drain segment in which every task succeeds: every
task is invoked in order, and if `onFinished` is registered it receives the
accumulator extended by the defined results in queue order. -/
theorem drainLoop_success (onErr onFin : Bool) (outs : List (Outcome α ε))
    (h : ∀ o ∈ outs, o.err = none) : ∀ (idx : Nat) (acc : List α),
    drainLoop onErr onFin idx acc outs =
      if onFin then
        ([], { invoked := List.range' idx outs.length, errorCall := none,
               finishedCall := some (acc ++ outs.filterMap Outcome.result), thrown := none })
      else
        (acc ++ outs.filterMap Outcome.result,
         { invoked := List.range' idx outs.length, errorCall := none,
           finishedCall := none, thrown := none }) := by
  induction outs with
  | nil =>
      intro idx acc
      cases onFin <;> simp [drainLoop]
  | cons o rest ih =>
      intro idx acc
      have ho : o.err = none := h o (List.mem_cons_self o rest)
      have hrest : ∀ x ∈ rest, x.err = none := fun x hx => h x (List.mem_cons_of_mem _ hx)
      have harg : addResultIfDefined acc o.result ++ rest.filterMap Outcome.result
          = acc ++ (o :: rest).filterMap Outcome.result := by
        cases hr : o.result <;> simp [addResultIfDefined, List.filterMap_cons, hr]
      have hrange : idx :: List.range' (idx + 1) rest.length = List.range' idx (rest.length + 1) := by
        simp [List.range'_succ]
      cases onFin <;>
        simp [drainLoop, ho, ih hrest (idx + 1) (addResultIfDefined acc o.result), ← harg, ← hrange]

/-- Characterization of a drain in which the tasks before `bad` succeed and
`bad` reports the error `e`, with an error handler registered: exactly the
tasks up to and including `bad` are invoked, and `onError` receives the error
together with the accumulated defined results — including `bad`'s own result
when its callback also passed a defined one, since line 204 runs before the
error check of line 205. -/
theorem drainLoop_error (onFin : Bool) (pre post : List (Outcome α ε))
    (bad : Outcome α ε) (e : ε) (hpre : ∀ o ∈ pre, o.err = none)
    (hbad : bad.err = some e) : ∀ (idx : Nat) (acc : List α),
    drainLoop true onFin idx acc (pre ++ bad :: post) =
      ([], { invoked := List.range' idx (pre.length + 1),
             errorCall := some (e, acc ++ pre.filterMap Outcome.result ++ bad.result.toList),
             finishedCall := none, thrown := none }) := by
  induction pre with
  | nil =>
      intro idx acc
      have harg : addResultIfDefined acc bad.result = acc ++ bad.result.toList := by
        cases hr : bad.result <;> simp [addResultIfDefined, hr]
      simp [drainLoop, hbad, harg, List.range'_succ]
  | cons o rest ih =>
      intro idx acc
      have ho : o.err = none := hpre o (List.mem_cons_self o rest)
      have hrest : ∀ x ∈ rest, x.err = none := fun x hx => hpre x (List.mem_cons_of_mem _ hx)
      simp [drainLoop, ho, ih hrest (idx + 1) (addResultIfDefined acc o.result), List.range'_succ]
      cases hr : o.result <;> simp [addResultIfDefined, List.filterMap_cons, hr]

/-- Whenever a drain of variant A fired a terminal handler, the `results`
field it leaves behind is empty (`chains.clearResults()`, lines 209 and 213). -/
theorem drainLoop_terminal_clears (onErr onFin : Bool) :
    ∀ (outs : List (Outcome α ε)) (idx : Nat) (acc : List α),
    ((drainLoop onErr onFin idx acc outs).2.finishedCall.isSome ∨
     (drainLoop onErr onFin idx acc outs).2.errorCall.isSome) →
    (drainLoop onErr onFin idx acc outs).1 = [] := by
  intro outs
  induction outs with
  | nil =>
      intro idx acc h
      cases hf : onFin <;> simp [drainLoop, hf] at h ⊢
  | cons o rest ih =>
      intro idx acc h
      cases he : o.err with
      | some e =>
          cases hE : onErr <;> simp [drainLoop, he, hE] at h ⊢
      | none =>
          simp [drainLoop, he] at h ⊢
          exact ih (idx + 1) (addResultIfDefined acc o.result) h

/-- Variant D drain in which every task succeeds: all tasks are invoked in
order; with no `onFinished` registered the results stay in the accumulator
and no error is stored. -/
theorem drainLoopD_success (onErr : Bool) (outs : List (Outcome α ε))
    (h : ∀ o ∈ outs, o.err = none) : ∀ (idx : Nat) (acc : List α),
    drainLoopD onErr false idx acc outs =
      ((acc ++ outs.filterMap Outcome.result, none),
       { invoked := List.range' idx outs.length, errorCall := none, finishedCall := none }) := by
  induction outs with
  | nil =>
      intro idx acc
      simp [drainLoopD]
  | cons o rest ih =>
      intro idx acc
      have ho : o.err = none := h o (List.mem_cons_self o rest)
      have hrest : ∀ x ∈ rest, x.err = none := fun x hx => h x (List.mem_cons_of_mem _ hx)
      simp [drainLoopD, ho, ih hrest (idx + 1) (addResultIfDefined acc o.result), List.range'_succ]
      cases hr : o.result <;> simp [addResultIfDefined, List.filterMap_cons, hr]

/-- Variant D drain hitting an error with no error handler registered: the
defined results collected so far (including the failing task's own, per line
942) stay in `results` and the error is stored in `chain.error` (line 953);
only the tasks up to and including the failing one are invoked. -/
theorem drainLoopD_error (onFin : Bool) (pre post : List (Outcome α ε))
    (bad : Outcome α ε) (e : ε) (hpre : ∀ o ∈ pre, o.err = none)
    (hbad : bad.err = some e) : ∀ (idx : Nat) (acc : List α),
    drainLoopD false onFin idx acc (pre ++ bad :: post) =
      ((acc ++ pre.filterMap Outcome.result ++ bad.result.toList, some e),
       { invoked := List.range' idx (pre.length + 1), errorCall := none,
         finishedCall := none }) := by
  induction pre with
  | nil =>
      intro idx acc
      have harg : addResultIfDefined acc bad.result = acc ++ bad.result.toList := by
        cases hr : bad.result <;> simp [addResultIfDefined, hr]
      simp [drainLoopD, hbad, harg, List.range'_succ]
  | cons o rest ih =>
      intro idx acc
      have ho : o.err = none := hpre o (List.mem_cons_self o rest)
      have hrest : ∀ x ∈ rest, x.err = none := fun x hx => hpre x (List.mem_cons_of_mem _ hx)
      simp [drainLoopD, ho, ih hrest (idx + 1) (addResultIfDefined acc o.result), List.range'_succ]
      cases hr : o.result <;> simp [addResultIfDefined, List.filterMap_cons, hr]

/-- C1: for any sequence of N (N ≥ 1) steps enqueued via fluent calls on one
builder in which every step completes successfully, step i delivering the
result `rs i`, the results sequence delivered to the registered `done` handler
is exactly `rs` — the steps' individual results in enqueue order. -/
theorem results_delivered_in_enqueue_order (onErr : Bool) (rs : List α) (hne : rs ≠ []) :
    (runChainA (ε := ε) onErr true
        (rs.map fun r => { err := none, result := some r })).2.finishedCall = some rs := by
  have hfm : ∀ l : List α,
      (l.map fun r => ({ err := none, result := some r } : Outcome α ε)).filterMap
        Outcome.result = l := by
    intro l
    induction l with
    | nil => simp
    | cons x xs ih => simp [List.filterMap_cons, ih]
  have hsucc : ∀ o ∈ rs.map fun r => ({ err := none, result := some r } : Outcome α ε),
      o.err = none := by
    intro o ho
    obtain ⟨r, _, rfl⟩ := List.mem_map.mp ho
    rfl
  obtain ⟨r, rs2, rfl⟩ := List.exists_cons_of_ne_nil hne
  have hd := drainLoop_success onErr true _ hsucc 0 ([] : List α)
  simp only [List.map_cons] at hd
  simp [runChainA, chainsExecA, execA, hd, List.filterMap_cons, hfm]

/-- Witness for C1: the spec's own scenario `.double(3).double(5)` — two
successful steps with results 6 and 10 — delivers `[6, 10]` to `done`. -/
theorem results_delivered_in_enqueue_order_witness :
    (runChainA (α := Nat) (ε := Nat) false true
        (([6, 10] : List Nat).map fun r => { err := none, result := some r })).2.finishedCall
      = some [6, 10] :=
  results_delivered_in_enqueue_order false [6, 10] (by decide)

/-- C2 counterexample: a chain whose first (and only) task reports an error
*and* passes a defined result through the same callback.  Because line 204
appends a defined result before line 205 checks the error, `catch` receives
`(9, [5])`, not the error with the empty results of tasks `1..k-1 = []` that
the claim demands. -/
theorem catch_receives_failing_tasks_own_result :
    (runChainA (α := Nat) (ε := Nat) true false
        [{ err := some 9, result := some 5 }]).2.errorCall = some (9, [5]) ∧
    (runChainA (α := Nat) (ε := Nat) true false
        [{ err := some 9, result := some 5 }]).2.errorCall ≠ some (9, []) := by
  constructor <;> decide

/-- C2 as amended: if the k-th enqueued task reports an error, the `catch`
handler receives that error together with the results of tasks `1..k-1`
extended by the failing task's own result when its callback also passed a
defined one, and exactly the tasks `1..k` were invoked — none of `k+1..N`
ever execute. -/
theorem error_shortcircuit (onFin : Bool) (pre post : List (Outcome α ε))
    (bad : Outcome α ε) (e : ε) (hpre : ∀ o ∈ pre, o.err = none)
    (hbad : bad.err = some e) :
    (runChainA true onFin (pre ++ bad :: post)).2.errorCall
        = some (e, pre.filterMap Outcome.result ++ bad.result.toList) ∧
    (runChainA true onFin (pre ++ bad :: post)).2.invoked
        = List.range' 0 (pre.length + 1) := by
  cases pre with
  | nil =>
      have hd := drainLoop_error onFin [] post bad e hpre hbad 0 ([] : List α)
      simp only [List.nil_append] at hd
      simp [runChainA, chainsExecA, execA, hd]
  | cons p pre2 =>
      have hd := drainLoop_error onFin (p :: pre2) post bad e hpre hbad 0 ([] : List α)
      simp only [List.cons_append] at hd
      simp [runChainA, chainsExecA, execA, hd]

/-- Witness for C2 as amended: the spec's `.ok().fail().ok()` scenario —
`catch` receives `(7, [1])`, only tasks 1 and 2 ran, task 3 never did. -/
theorem error_shortcircuit_witness :
    (runChainA (α := Nat) (ε := Nat) true false
        [{ err := none, result := some 1 }, { err := some 7, result := none },
         { err := none, result := some 2 }]).2.errorCall = some (7, [1]) ∧
    (runChainA (α := Nat) (ε := Nat) true false
        [{ err := none, result := some 1 }, { err := some 7, result := none },
         { err := none, result := some 2 }]).2.invoked = [0, 1] :=
  error_shortcircuit false [{ err := none, result := some 1 }]
    [{ err := none, result := some 2 }] { err := some 7, result := none } 7
    (by decide) rfl

/-- C3 (the code contradicts the claim): variant A's `chains.exec` sets
`executing = true` (line 81) and nothing ever resets it, so after the first
chain's terminal transition (`done` received `[1]`) the executor is *not*
back in an Idle state: a subsequent fluent call leaves its task queued
forever — the exec trigger returns immediately, no task is invoked and no
handler fires. -/
theorem second_chain_never_runs :
    (queueTaskA (α := Nat) (ε := Nat)
        { tasks := [], results := [], executing := false, onError := false, onFinished := true }
        { err := none, result := some 1 }).2.finishedCall = some [1] ∧
    (queueTaskA (α := Nat) (ε := Nat)
        { tasks := [], results := [], executing := false, onError := false, onFinished := true }
        { err := none, result := some 1 }).1.executing = true ∧
    (queueTaskA (queueTaskA (α := Nat) (ε := Nat)
        { tasks := [], results := [], executing := false, onError := false, onFinished := true }
        { err := none, result := some 1 }).1
        { err := none, result := some 2 }).2 = LogA.empty ∧
    (queueTaskA (queueTaskA (α := Nat) (ε := Nat)
        { tasks := [], results := [], executing := false, onError := false, onFinished := true }
        { err := none, result := some 1 }).1
        { err := none, result := some 2 }).1.tasks = [{ err := none, result := some 2 }] := by
  refine ⟨rfl, rfl, rfl, rfl⟩

/-- C4: whenever a drain of variant A fired a terminal handler — `done` with
the full results or `catch` with the error and partial results — the
builder's `results` accumulator is left empty. -/
theorem results_cleared_after_terminal (onErr onFin : Bool) (outs : List (Outcome α ε))
    (h : (runChainA onErr onFin outs).2.finishedCall.isSome ∨
         (runChainA onErr onFin outs).2.errorCall.isSome) :
    (runChainA onErr onFin outs).1.results = [] := by
  cases outs with
  | nil => simp [runChainA, chainsExecA, execA, LogA.empty] at h
  | cons o rest =>
      have hcl := drainLoop_terminal_clears onErr onFin (o :: rest) 0 []
      simp [runChainA, chainsExecA, execA] at h ⊢
      exact hcl h

/-- Witness for C4: after a successful one-step chain delivered `[3]` to
`done`, the accumulator is empty. -/
theorem results_cleared_after_terminal_witness :
    (runChainA (α := Nat) (ε := Nat) false true
        [{ err := none, result := some 3 }]).1.results = [] :=
  results_cleared_after_terminal false true [{ err := none, result := some 3 }] (by decide)

/-- C5: triggering the executor while a drain is already running is a no-op,
in both executors.  Variant A's `chains.exec` returns immediately when
`executing` is set, so a `queueTask` during a drain only appends the task —
which the already-running drain will pick up — and starts no second drain;
variant D's `queueTask` likewise only pushes the task when `executing !== 0`.
In this sequential embedding these guards are exactly what keeps a single
task in flight: the only way a step runs is inside the one active drain. -/
theorem reentrancy_guard (sA : StateA α ε) (tA : Outcome α ε)
    (sD : StateD α ε) (tD : Outcome α ε)
    (hA : sA.executing = true) (hD : sD.executing ≠ 0) :
    chainsExecA sA = (sA, LogA.empty) ∧
    queueTaskA sA tA = ({ sA with tasks := sA.tasks ++ [tA] }, LogA.empty) ∧
    queueTaskD sD tD = ({ sD with tasks := sD.tasks ++ [tD] }, LogD.empty) := by
  refine ⟨?_, ?_, ?_⟩
  · simp [chainsExecA, hA]
  · simp [queueTaskA, chainsExecA, hA]
  · simp [queueTaskD, hD]

/-- Witness for C5: concrete running states in both variants; the triggers
append at most the new task and fire nothing. -/
theorem reentrancy_guard_witness :
    chainsExecA ({ tasks := [{ err := none, result := some 4 }], results := [],
                   executing := true, onError := false, onFinished := true } : StateA Nat Nat)
      = ({ tasks := [{ err := none, result := some 4 }], results := [],
           executing := true, onError := false, onFinished := true }, LogA.empty) ∧
    queueTaskA ({ tasks := [{ err := none, result := some 4 }], results := [],
                  executing := true, onError := false, onFinished := true } : StateA Nat Nat)
        { err := none, result := some 5 }
      = ({ tasks := [{ err := none, result := some 4 }, { err := none, result := some 5 }],
           results := [], executing := true, onError := false, onFinished := true }, LogA.empty) ∧
    queueTaskD ({ tasks := [], results := [2], executing := 2, error := none,
                  onError := false, onFinished := false } : StateD Nat Nat)
        { err := none, result := some 6 }
      = ({ tasks := [{ err := none, result := some 6 }], results := [2], executing := 2,
           error := none, onError := false, onFinished := false }, LogD.empty) :=
  reentrancy_guard
    { tasks := [{ err := none, result := some 4 }], results := [],
      executing := true, onError := false, onFinished := true }
    { err := none, result := some 5 }
    { tasks := [], results := [2], executing := 2, error := none,
      onError := false, onFinished := false }
    { err := none, result := some 6 } rfl (by decide)

/-- C6: deferred delivery in variant D.  First part: a chain whose k-th task
fails with no error handler registered ends with `executing = 0` and the
error stored; registering `catch` afterwards immediately hands the new
handler the stored error together with the accumulated results (those of
tasks `1..k-1` plus the failing task's own defined result, per line 942), and
clears both.  Second part: an all-successful chain with no `done` handler
registered keeps its results; registering `done` afterwards immediately hands
the new handler those results and clears them. -/
theorem deferred_handler_delivery (onFin onErr : Bool)
    (pre post succs : List (Outcome α ε)) (bad : Outcome α ε) (e : ε)
    (hpre : ∀ o ∈ pre, o.err = none) (hbad : bad.err = some e)
    (hsuccs : ∀ o ∈ succs, o.err = none)
    (hres : succs.filterMap Outcome.result ≠ []) :
    ((runChainD false onFin (pre ++ bad :: post)).1.executing = 0 ∧
     (runChainD false onFin (pre ++ bad :: post)).1.error = some e ∧
     (protoCatch (runChainD false onFin (pre ++ bad :: post)).1).2
        = some (e, pre.filterMap Outcome.result ++ bad.result.toList) ∧
     (protoCatch (runChainD false onFin (pre ++ bad :: post)).1).1.results = []) ∧
    ((protoDone (runChainD onErr false succs).1).2 = some (succs.filterMap Outcome.result) ∧
     (protoDone (runChainD onErr false succs).1).1.results = []) := by
  constructor
  · have hd : execD false onFin ([] : List α) (pre ++ bad :: post)
        = drainLoopD false onFin 0 [] (pre ++ bad :: post) := by
      cases pre <;> simp [execD]
    have he := drainLoopD_error onFin pre post bad e hpre hbad 0 ([] : List α)
    refine ⟨?_, ?_, ?_, ?_⟩ <;>
      simp [runChainD, hd, he, protoCatch]
  · obtain ⟨o, rest, rfl⟩ : ∃ o rest, succs = o :: rest := by
      cases succs with
      | nil => simp at hres
      | cons o rest => exact ⟨o, rest, rfl⟩
    have hs := drainLoopD_success onErr (o :: rest) hsuccs 0 ([] : List α)
    have hlen : 0 < ((o :: rest).filterMap Outcome.result).length :=
      List.length_pos.mpr hres
    constructor <;> simp [runChainD, execD, hs, protoDone, hlen]

/-- Witness for C6: a failed chain `ok(1); fail(7)` with no handlers ends with
the stored error 7 and results `[1]`; `catch` registered afterwards receives
`(7, [1])` at once and clears the state.  A successful chain delivering `[3]`
with no `done` handler keeps `[3]`; `done` registered afterwards receives
`[3]` at once. -/
theorem deferred_handler_delivery_witness :
    ((runChainD (α := Nat) (ε := Nat) false false
        [{ err := none, result := some 1 }, { err := some 7, result := none }]).1.executing = 0 ∧
     (runChainD (α := Nat) (ε := Nat) false false
        [{ err := none, result := some 1 }, { err := some 7, result := none }]).1.error = some 7 ∧
     (protoCatch (runChainD (α := Nat) (ε := Nat) false false
        [{ err := none, result := some 1 }, { err := some 7, result := none }]).1).2
        = some (7, [1]) ∧
     (protoCatch (runChainD (α := Nat) (ε := Nat) false false
        [{ err := none, result := some 1 }, { err := some 7, result := none }]).1).1.results = []) ∧
    ((protoDone (runChainD (α := Nat) (ε := Nat) false false
        [{ err := none, result := some 3 }]).1).2 = some [3] ∧
     (protoDone (runChainD (α := Nat) (ε := Nat) false false
        [{ err := none, result := some 3 }]).1).1.results = []) :=
  deferred_handler_delivery false false [{ err := none, result := some 1 }] []
    [{ err := none, result := some 3 }] { err := some 7, result := none } 7
    (by decide) rfl (by decide) (by decide)

/-- C7: the completion callback appends the step's `result` to the results
sequence exactly when it is defined (line 204): a defined result extends the
accumulator by that one value, an undefined result leaves it untouched — so
an all-successful chain delivers to `done` precisely the defined results, in
order, and a step that succeeded with an undefined result contributed
nothing. -/
theorem result_appended_iff_defined :
    (∀ (acc : List α) (r : α), addResultIfDefined acc (some r) = acc ++ [r]) ∧
    (∀ acc : List α, addResultIfDefined acc (none : Option α) = acc) ∧
    (∀ (onErr : Bool) (outs : List (Outcome α ε)),
       (∀ o ∈ outs, o.err = none) → outs ≠ [] →
       (runChainA onErr true outs).2.finishedCall = some (outs.filterMap Outcome.result)) := by
  refine ⟨fun acc r => rfl, fun acc => rfl, ?_⟩
  intro onErr outs hsucc hne
  obtain ⟨o, rest, rfl⟩ := List.exists_cons_of_ne_nil hne
  have hd := drainLoop_success onErr true _ hsucc 0 ([] : List α)
  simp [runChainA, chainsExecA, execA, hd]

/-- Witness for C7: appending to `[3]` a defined result 4 gives `[3, 4]`, an
undefined one leaves `[5]`; a chain of a defined-result step and an
undefined-result step delivers just `[3]` to `done`. -/
theorem result_appended_iff_defined_witness :
    addResultIfDefined [3] (some 4) = [3, 4] ∧
    addResultIfDefined ([5] : List Nat) (none : Option Nat) = [5] ∧
    (runChainA (α := Nat) (ε := Nat) false true
        [{ err := none, result := some 3 }, { err := none, result := none }]).2.finishedCall
      = some [3] :=
  ⟨(result_appended_iff_defined (α := Nat) (ε := Nat)).1 [3] 4,
   (result_appended_iff_defined (α := Nat) (ε := Nat)).2.1 [5],
   (result_appended_iff_defined (α := Nat) (ε := Nat)).2.2 false
     [{ err := none, result := some 3 }, { err := none, result := none }]
     (by decide) (by decide)⟩

/-- C8: registering a step under the chain-accessor api name or under `then`
throws (`Reserved keyword` in variant A's `chains.chainable`; `Duplicated
method name` in variant D's `Chainable.prototype.chainable`, where `then` is
an existing prototype member) and leaves the builder exactly as it was: no
method is stored and no public fluent method is created. -/
theorem reserved_name_rejected (api name : String) (st : RegistryA) (fn : Nat)
    (ms : List (String × Nat)) (fn2 : Nat)
    (h : name = api ∨ name = "then") :
    chainsChainable api st name fn = (st, some ("Reserved keyword: " ++ name)) ∧
    protoChainableD protoProps ms "then" fn2
      = ((ms, protoProps), some ("Duplicated method name: " ++ "then")) := by
  constructor
  · simp only [chainsChainable]
    rw [if_pos h]
  · have hmem : "then" ∈ protoProps := by decide
    simp only [protoChainableD]
    rw [if_pos hmem]

/-- Witness for C8: on a fresh builder with the default accessor name
`chains`, registering a step named `then` is rejected by both variants and
both registries are untouched. -/
theorem reserved_name_rejected_witness :
    chainsChainable "chains" { methods := [], publicMethods := [] } "then" 0
      = ({ methods := [], publicMethods := [] }, some ("Reserved keyword: " ++ "then")) ∧
    protoChainableD protoProps [] "then" 0
      = (([], protoProps), some ("Duplicated method name: " ++ "then")) :=
  reserved_name_rejected "chains" "then" { methods := [], publicMethods := [] } 0 [] 0
    (Or.inr rfl)

/-- C9 counterexample: the claim that the caller's array is unchanged after
`then(fn, [p1, ..., pn])` queued and executed its task fails already for the
one-element array `[0]`: line 135 makes the task's argument array alias the
caller's array, and line 68 appends the completion callback to it when the
task runs, so afterwards the caller's array is not `[0]` any more. -/
theorem caller_array_mutated :
    callerArrayAfterRun [(0 : Nat)] ≠ [Arg.param 0] := by
  decide

/-- C9 as amended: arguments passed variadically are copied into a fresh
array, so no caller-owned array is aliased; but when `then` receives a single
array, that very array becomes the task's argument list and executing the
task appends the completion callback to it — afterwards the caller's array
holds its original elements (still a prefix, in place) followed by the
callback, one element longer than before. -/
theorem caller_array_callback_appended {π : Type} (a params : List π) :
    callerArrayAfterRun a = a.map Arg.param ++ [Arg.callback] ∧
    (callerArrayAfterRun a).take a.length = a.map Arg.param ∧
    (callerArrayAfterRun a).length = a.length + 1 ∧
    (thenArgsSingleArray a).2 = true ∧
    (thenArgsVariadic params).2 = false := by
  refine ⟨rfl, ?_, ?_, rfl, rfl⟩
  · show ((a.map Arg.param) ++ [Arg.callback]).take a.length = a.map Arg.param
    exact List.take_left' (by simp)
  · simp [callerArrayAfterRun, runQueuedTask, thenArgsSingleArray]

/-- C10: a trigger of variant A's `chains.exec` that actually starts a drain
(the executor was idle) behaves identically whatever `results` held before:
line 82 resets the accumulator to empty before the first task runs, so
results left over from a previous run are discarded. -/
theorem exec_trigger_resets_results (s : StateA α ε) (r : List α)
    (h : s.executing = false) :
    chainsExecA { s with results := r } = chainsExecA { s with results := [] } := by
  cases s with
  | mk tasks results executing onError onFinished =>
      subst h
      rfl

/-- Witness for C10: an idle builder with stale results `[9]` starts its next
drain exactly as if the results were already empty. -/
theorem exec_trigger_resets_results_witness :
    chainsExecA ({ tasks := [{ err := none, result := some 2 }], results := [9],
                   executing := false, onError := false, onFinished := true } : StateA Nat Nat)
      = chainsExecA ({ tasks := [{ err := none, result := some 2 }], results := [],
                       executing := false, onError := false, onFinished := true } : StateA Nat Nat) :=
  exec_trigger_resets_results
    { tasks := [{ err := none, result := some 2 }], results := [],
      executing := false, onError := false, onFinished := true } [9] rfl

end Chainablejs
